import Mathlib

/-!
# Verification model of the `astdys` catalog library

Shallow embedding of `src/astdys` (files `astdys.py`, `catalog.py`, `util.py`).

Conventions of the embedding:

* A DataFrame row is an association list from column names to cells
  (`Row`); a table is the list of its rows in source order.
* Cells are kept textual (`TCell.str`) until the code converts them:
  pandas' numeric dtype inference is irrelevant to the transform because
  the only numeric operation performed there, `astype(float)`, coincides
  with parsing the (quote-stripped) token directly.  A missing trailing
  field read as NaN is `TCell.na`; a degree value `q` converted by
  `astype(float) * np.pi / 180` is recorded exactly as `TCell.rad q`,
  whose denotation `TCell.realValue` is `q * π / 180`.
* Rationals stand in for Python floats.  The catalog values in the
  claims' scope are decimal literals, represented exactly.
* Stateful class methods become functions `Store → Except Err α × Store`:
  the returned store is the class/filesystem state at return or at the
  point the exception escapes, matching Python's in-place mutation.
* `pd.read_csv(sep="\s+", names=..., index_col=False)` is modelled in
  the standard situation (the one the descriptors guarantee): the
  expected width is `columns.length`; a row with more fields raises a
  tokenizing error, a row with fewer is padded with NaN, blank lines are
  skipped.  `read_csv` on the cached CSV returns the stored table with
  the `name` column textual (`dtype={'name': str}`).
-/

deriving instance DecidableEq for Except

/-- Failure modes surfaced by the library (Python exception classes). -/
inductive Err where
  | validation : Err
  | config : Err
  | tokenizing : Err
  | format : Err
  | keyError : Err
  | download : Err
  | fileNotFound : Err
  | attrError : Err
deriving DecidableEq

/-- A value held by one DataFrame cell. -/
inductive TCell where
  | na : TCell
  | str : String → TCell
  | num : ℚ → TCell
  | rad : ℚ → TCell
deriving DecidableEq

/-- The real number denoted by a numeric cell.  `rad q` is the degree
value `q` after the source's `astype(float) * np.pi / 180` conversion. -/
noncomputable def TCell.realValue : TCell → Option ℝ
  | .na => none
  | .str _ => none
  | .num q => some (q : ℝ)
  | .rad q => some ((q : ℝ) * Real.pi / 180)

/-- One DataFrame row: column name to cell, in column order
(`Series.to_dict` of the row). -/
abbrev Row := List (String × TCell)

/-- A DataFrame: rows in source order. -/
abbrev Table := List Row

/-- Lookup in an association list (first binding wins, like indexing a
DataFrame by column name). -/
def lookupA {α : Type} : String → List (String × α) → Option α
  | _, [] => none
  | k, (k', v) :: t => if k' = k then some v else lookupA k t

/-- Update/insert a binding in an association list, preserving order
(Python `dict` assignment). -/
def setA {α : Type} : List (String × α) → String → α → List (String × α)
  | [], k, v => [(k, v)]
  | (k', v') :: t, k, v => if k' = k then (k, v) :: t else (k', v') :: setA t k v

/-- Remove a binding from an association list (file deletion). -/
def eraseA {α : Type} : List (String × α) → String → List (String × α)
  | [], _ => []
  | (k', v') :: t, k => if k' = k then t else (k', v') :: eraseA t k

/-- Immutable configuration of one catalog variant (`catalog.py`). -/
structure Catalog where
  original_filename : String
  filename : String
  url : String
  catalog_type : String
  skip_rows : Nat
  columns : List String
  degree_columns : List String
deriving DecidableEq

/-- The `OSCULATING_CATALOG` descriptor from `astdys.py`. -/
def OSCULATING_CATALOG : Catalog where
  original_filename := "cache/allnum.cat"
  filename := "cache/allnum.csv"
  url := "https://newton.spacedys.com/~astdys2/catalogs/allnum.cat"
  catalog_type := "osculating"
  skip_rows := 6
  columns := ["name", "epoch", "a", "e", "inc", "Omega", "omega", "M", "del_1", "del_2", "del_3"]
  degree_columns := ["inc", "Omega", "omega", "M"]

/-- The `SYNTHETIC_CATALOG` descriptor from `astdys.py`. -/
def SYNTHETIC_CATALOG : Catalog where
  original_filename := "cache/all.syn"
  filename := "cache/allsyn.csv"
  url := "https://newton.spacedys.com/~astdys2/propsynth/all.syn"
  catalog_type := "synthetic"
  skip_rows := 2
  columns := ["name", "mag", "a", "e", "sinI", "n", "g", "s", "lce", "my"]
  degree_columns := ["sinI", "n"]

/-! ## Tokenizing and numeric parsing -/

/-- The single-quote character stripped by
`catalog.replace("'", '', regex=True)`. -/
def quoteChar : Char := '\''

/-- Remove every single quote from a string. -/
def stripQuotes (s : String) : String := String.mk (s.data.filter (fun c => c ≠ quoteChar))

/-- Test `col.startswith('del_')`. -/
def startsWithDel (s : String) : Bool := "del_".data.isPrefixOf s.data

/-- Split a character list on runs of whitespace, dropping empty tokens
(the `sep="\s+"` field splitter, which also ignores leading blanks). -/
def wordsAux : List Char → List Char → List (List Char)
  | [], acc => if acc.isEmpty then [] else [acc.reverse]
  | c :: cs, acc =>
    if c.isWhitespace then
      if acc.isEmpty then wordsAux cs [] else acc.reverse :: wordsAux cs []
    else wordsAux cs (c :: acc)

/-- Whitespace-delimited fields of one raw line. -/
def tokenize (s : String) : List String := (wordsAux s.data []).map String.mk

/-- Data rows of the raw file: skip the first `skip` lines, tokenize,
drop blank lines (`skip_blank_lines` default of `read_csv`). -/
def dataRows (skip : Nat) (lines : List String) : List (List String) :=
  ((lines.drop skip).map tokenize).filter (fun r => !r.isEmpty)

/-- Value of a decimal digit character. -/
def digitVal (c : Char) : Nat := c.toNat - 48

/-- Digits to the natural number they spell. -/
def digitsToNat (ds : List Char) : Nat := ds.foldl (fun a c => a * 10 + digitVal c) 0

/-- All characters are decimal digits. -/
def allDigits (ds : List Char) : Bool := ds.all Char.isDigit

/-- Unsigned decimal mantissa `123`, `12.5`, `12.`, `.5`:
numerator together with the number of fractional digits. -/
def parseMantissa (cs : List Char) : Option (Nat × Nat) :=
  match cs.splitOn '.' with
  | [ip] => if !ip.isEmpty && allDigits ip then some (digitsToNat ip, 0) else none
  | [ip, fp] =>
    if (!ip.isEmpty || !fp.isEmpty) && allDigits ip && allDigits fp then
      some (digitsToNat ip * 10 ^ fp.length + digitsToNat fp, fp.length)
    else none
  | _ => none

/-- Optionally signed exponent digits after `e`/`E`. -/
def parseExpPart (cs : List Char) : Option Int :=
  match cs with
  | '+' :: rest => if !rest.isEmpty && allDigits rest then some (digitsToNat rest : Int) else none
  | '-' :: rest => if !rest.isEmpty && allDigits rest then some (-(digitsToNat rest : Int)) else none
  | rest => if !rest.isEmpty && allDigits rest then some (digitsToNat rest : Int) else none

/-- Assemble sign, numerator, count of fractional digits and exponent
into an exact rational. -/
def ratOfParts (sgn : Int) (numr : Nat) (fracLen : Nat) (ex : Int) : ℚ :=
  if 0 ≤ ex then mkRat (sgn * numr * 10 ^ ex.toNat) (10 ^ fracLen)
  else mkRat (sgn * numr) (10 ^ fracLen * 10 ^ (-ex).toNat)

/-- Python `float(token)` on the decimal/scientific literals appearing
in catalogs (`nan`/`inf` spellings and digit underscores are outside the
modelled subset; no catalog value uses them). -/
def parseFloat (s : String) : Option ℚ :=
  let p : Int × List Char :=
    match s.data with
    | '+' :: r => (1, r)
    | '-' :: r => (-1, r)
    | r => (1, r)
  match (p.2.map (fun c => if c = 'E' then 'e' else c)).splitOn 'e' with
  | [m] => (parseMantissa m).map (fun q => ratOfParts p.1 q.1 q.2 0)
  | [m, ex] =>
    match parseMantissa m, parseExpPart ex with
    | some q, some e => some (ratOfParts p.1 q.1 q.2 e)
    | _, _ => none
  | _ => none

/-! ## The catalog transform (`AstDys._transform_astdys_catalog`) -/

/-- Effectful map over a list, propagating the first error
(stage-by-stage, as pandas processes whole columns/rows). -/
def exMapM {α β : Type} (f : α → Except Err β) : List α → Except Err (List β)
  | [] => .ok []
  | x :: xs =>
    match f x with
    | .error e => .error e
    | .ok y =>
      match exMapM f xs with
      | .error e => .error e
      | .ok ys => .ok (y :: ys)

/-- Read one tokenized row against the declared columns: a row wider
than `cols` raises the tokenizer error, a narrower one is padded with
NaN. -/
def padRow (cols : List String) (fields : List String) : Except Err Row :=
  if cols.length < fields.length then .error .tokenizing
  else .ok (cols.zip (fields.map TCell.str ++ List.replicate (cols.length - fields.length) TCell.na))

/-- Strip single quotes from one cell (non-textual cells unaffected). -/
def stripCell : TCell → TCell
  | TCell.str s => TCell.str (stripQuotes s)
  | c => c

/-- Strip single quotes from every textual cell of a row. -/
def stripRowQuotes (r : Row) : Row := r.map (fun p => (p.1, stripCell p.2))

/-- Drop the `del_`-prefixed filler columns. -/
def dropDelCols (r : Row) : Row := r.filter (fun p => !startsWithDel p.1)

/-- Apply `astype(float) * np.pi / 180` to one cell: NaN stays NaN, a textual
value must parse as a number and becomes its radian conversion. -/
def convertCell : TCell → Except Err TCell
  | TCell.na => .ok TCell.na
  | TCell.str s =>
    match parseFloat s with
    | some q => .ok (TCell.rad q)
    | none => .error .format
  | TCell.num q => .ok (TCell.rad q)
  | TCell.rad q => .ok (TCell.rad q)

/-- Convert the cell when its column is listed in `degree_columns`. -/
def convertPair (degs : List String) (p : String × TCell) : Except Err (String × TCell) :=
  if degs.contains p.1 then
    match convertCell p.2 with
    | .error e => .error e
    | .ok c => .ok (p.1, c)
  else .ok p

/-- Degree-to-radian conversion over one row. -/
def convertRow (degs : List String) (r : Row) : Except Err Row :=
  exMapM (convertPair degs) r

/-- Move the `epoch` column to the end, keeping all other columns in
order (`if 'epoch' in catalog.columns` reordering). -/
def moveEpochRow (r : Row) : Row :=
  if r.any (fun p => p.1 = "epoch") then
    r.filter (fun p => p.1 ≠ "epoch") ++ r.filter (fun p => p.1 = "epoch")
  else r

/-- Columns surviving the `del_` drop. -/
def keptColumns (cfg : Catalog) : List String :=
  cfg.columns.filter (fun c => !startsWithDel c)

/-- The transform `AstDys._transform_astdys_catalog`, as a pure function of the raw
file's lines: read with positional names (tokenizer errors first), strip
quotes, drop fillers, convert degree columns (pandas iterates whole
columns; a listed column missing after the drop is a KeyError, any
non-numeric value a conversion error — the same ok/error outcome as this
row-major pass), move `epoch` last. -/
def transform_astdys_catalog (cfg : Catalog) (lines : List String) : Except Err Table :=
  match exMapM (padRow cfg.columns) (dataRows cfg.skip_rows lines) with
  | .error e => .error e
  | .ok parsed =>
    let cleaned := (parsed.map stripRowQuotes).map dropDelCols
    if cfg.degree_columns.all (fun c => (keptColumns cfg).contains c) then
      match exMapM (convertRow cfg.degree_columns) cleaned with
      | .error e => .error e
      | .ok converted => .ok (converted.map moveEpochRow)
    else .error .keyError

/-! ## Process-wide state (`AstDys` class attributes plus its environment) -/

/-- The mutable world the class methods act on: the loaded-table map,
the descriptor registry, the current catalog-type selector, the raw and
cached files on disk (cached CSV content modelled at table level), and
the remote source (`none` for a URL means the fetch fails). -/
structure Store where
  catalogs : List (String × Table)
  catalogs_configs : List (String × Catalog)
  catalog_type : String
  rawFiles : List (String × List String)
  csvFiles : List (String × Table)
  network : List (String × List String)
deriving DecidableEq

/-- Accessor `AstDys._catalog()`. -/
def Store.catalogDf (s : Store) : Option Table := lookupA s.catalog_type s.catalogs

/-- Accessor `AstDys._catalog_config()`. -/
def Store.catalogConfig (s : Store) : Option Catalog := lookupA s.catalog_type s.catalogs_configs

/-- Method `AstDys._build()`: download the raw file when absent (saving it even
if a later step fails), transform it, and only then write the CSV. -/
def buildCatalog (s : Store) : Except Err Unit × Store :=
  match s.catalogConfig with
  | none => (.error .attrError, s)
  | some cfg =>
    let fetched : Except Err Unit × Store :=
      match lookupA cfg.original_filename s.rawFiles with
      | some _ => (.ok (), s)
      | none =>
        match lookupA cfg.url s.network with
        | some content => (.ok (), { s with rawFiles := setA s.rawFiles cfg.original_filename content })
        | none => (.error .download, s)
    match fetched with
    | (.error e, s₁) => (.error e, s₁)
    | (.ok _, s₁) =>
      match lookupA cfg.original_filename s₁.rawFiles with
      | none => (.error .fileNotFound, s₁)
      | some lines =>
        match transform_astdys_catalog cfg lines with
        | .error e => (.error e, s₁)
        | .ok t => (.ok (), { s₁ with csvFiles := setA s₁.csvFiles cfg.filename t })

/-- Method `AstDys.load()`: build only when no table is in memory for the
current type and the CSV is absent; then read the CSV (its content, with
the `name` column textual) into the table map, file-not-found if it is
still missing. -/
def load (s : Store) : Except Err Unit × Store :=
  match s.catalogConfig with
  | none => (.error .attrError, s)
  | some cfg =>
    let built : Except Err Unit × Store :=
      if s.catalogDf = none then
        if lookupA cfg.filename s.csvFiles = none then buildCatalog s
        else (.ok (), s)
      else (.ok (), s)
    match built with
    | (.error e, s₁) => (.error e, s₁)
    | (.ok _, s₁) =>
      match lookupA cfg.filename s₁.csvFiles with
      | none => (.error .fileNotFound, s₁)
      | some t => (.ok (), { s₁ with catalogs := setA s₁.catalogs s.catalog_type t })

/-- Method `AstDys.rebuild()`: delete the raw file if present, then build. -/
def rebuild (s : Store) : Except Err Unit × Store :=
  match s.catalogConfig with
  | none => (.error .attrError, s)
  | some cfg => buildCatalog { s with rawFiles := eraseA s.rawFiles cfg.original_filename }

/-- Method `AstDys.set_type(catalog_type)`: unknown keys fail before any
mutation; known keys update the selector and immediately `load()`. -/
def set_type (catalog_type : String) (s : Store) : Except Err Unit × Store :=
  if (lookupA catalog_type s.catalogs_configs).isSome then
    load { s with catalog_type := catalog_type }
  else (.error .config, s)

/-- The lazy-load preamble `if cls._catalog() is None: cls.load()`
shared by the query methods. -/
def ensureLoaded (s : Store) : Except Err Unit × Store :=
  if s.catalogDf = none then load s else (.ok (), s)

/-- An identifier argument: Python `int` or `str`. -/
inductive Ident where
  | int : Int → Ident
  | str : String → Ident

/-- Coercion `str(identifier)`. -/
def Ident.toStr : Ident → String
  | .int n => toString n
  | .str s => s

/-- The row filter `catalog['name'] == name_str`: exact string equality
against the textual identifier column. -/
def nameMatches (nm : String) (r : Row) : Bool :=
  lookupA "name" r = some (TCell.str nm)

/-- Method `AstDys.search` on a single identifier: first matching row as a
mapping, `None` when absent. -/
def search (identifier : Ident) (s : Store) : Except Err (Option Row) × Store :=
  match ensureLoaded s with
  | (.error e, s₁) => (.error e, s₁)
  | (.ok _, s₁) =>
    match s₁.catalogDf with
    | none => (.error .attrError, s₁)
    | some t => (.ok ((t.filter (nameMatches identifier.toStr)).head?), s₁)

/-- Method `AstDys.search` on a list of identifiers: the mapping built row by
row over the rows whose identifier is in the coerced list. -/
def searchMany (identifiers : List Ident) (s : Store) : Except Err (List (String × Row)) × Store :=
  match ensureLoaded s with
  | (.error e, s₁) => (.error e, s₁)
  | (.ok _, s₁) =>
    match s₁.catalogDf with
    | none => (.error .attrError, s₁)
    | some t =>
      let names := identifiers.map Ident.toStr
      let rows := t.filter (fun r =>
        match lookupA "name" r with
        | some (TCell.str n) => names.contains n
        | _ => false)
      (.ok (rows.foldl (fun acc r =>
        match lookupA "name" r with
        | some (TCell.str n) => setA acc n r
        | _ => acc) []), s₁)

/-- The row filter of `search_by_axis`: the `a` cell lies in the closed
interval (NaN and non-numeric cells never match, as in pandas). -/
def axisMatches (amin amax : ℚ) (r : Row) : Bool :=
  match lookupA "a" r with
  | some (TCell.num q) => decide (amin ≤ q) && decide (q ≤ amax)
  | _ => false

/-- Method `AstDys.search_by_axis(axis, sigma)`. -/
def search_by_axis (axis sigma : ℚ) (s : Store) : Except Err Table × Store :=
  if axis ≤ 0 then (.error .validation, s)
  else if sigma ≤ 0 then (.error .validation, s)
  else
    match ensureLoaded s with
    | (.error e, s₁) => (.error e, s₁)
    | (.ok _, s₁) =>
      match s₁.catalogDf with
      | none => (.error .attrError, s₁)
      | some t => (.ok (t.filter (axisMatches (axis - sigma) (axis + sigma))), s₁)

/-- Method `AstDys.get_catalog()`. -/
def get_catalog (s : Store) : Except Err (Option Table) × Store :=
  match ensureLoaded s with
  | (.error e, s₁) => (.error e, s₁)
  | (.ok _, s₁) => (.ok s₁.catalogDf, s₁)

/-! ## Time conversion (`util.py`)

Python `datetime` arithmetic over the proleptic Gregorian calendar.  A
datetime is its (possibly fractional) ordinal: days since 0001-01-01
plus one, so that `toordinal 1 1 1 = 1` as in `datetime.toordinal`. -/

/-- Gregorian leap-year predicate. -/
def isLeapYear (y : Int) : Bool := (y % 4 = 0 && y % 100 ≠ 0) || y % 400 = 0

/-- Days in the years before `y` (for `y ≥ 1`). -/
def daysBeforeYear (y : Int) : Int :=
  365 * (y - 1) + (y - 1) / 4 - (y - 1) / 100 + (y - 1) / 400

/-- Days in the months of year `y` before month `m`. -/
def daysBeforeMonth (y : Int) (m : Nat) : Int :=
  ([0, 31, 59, 90, 120, 151, 181, 212, 243, 273, 304, 334].getD (m - 1) 0 : Nat)
    + (if 2 < m && isLeapYear y then 1 else 0)

/-- Python `datetime(y, m, d).toordinal()`. -/
def toordinal (y : Int) (m d : Nat) : Int := daysBeforeYear y + daysBeforeMonth y m + d

/-- Inverse calendar conversion: the civil date (y, m, d) of a datetime
ordinal, by the standard era-decomposition algorithm. -/
def civilOfOrdinal (n : Int) : Int × Int × Int :=
  let z := n + 305
  let era := (if 0 ≤ z then z else z - 146096) / 146097
  let doe := z - era * 146097
  let yoe := (doe - doe / 1460 + doe / 36524 - doe / 146096) / 365
  let y := yoe + era * 400
  let doy := doe - (365 * yoe + yoe / 4 - yoe / 100)
  let mp := (5 * doy + 2) / 153
  let d := doy - (153 * mp + 2) / 5 + 1
  let m := mp + (if mp < 10 then 3 else -9)
  (y + (if m ≤ 2 then 1 else 0), m, d)

/-- Function `convert_mjd_to_datetime(mjd)`:
`datetime(1858, 11, 17) + timedelta(days=mjd)`, as a fractional
ordinal. -/
def convert_mjd_to_datetime (mjd : ℚ) : ℚ := (toordinal 1858 11 17 : ℚ) + mjd

/-! ## Concrete fixtures used by counterexamples and witnesses -/

/-- A raw osculating file whose single data row has 8 fields (the three
trailing `del_` fillers missing) against 11 declared columns. -/
def shortRowRaw : List String :=
  ["h", "h", "h", "h", "h", "h", "'1' 57600 2.5 0.1 10 80 73 95"]

/-- A raw osculating file whose single data row has 12 fields against
11 declared columns. -/
def longRowRaw : List String :=
  ["h", "h", "h", "h", "h", "h", "'1' 57600 2.5 0.1 10 80 73 95 3.3 0.1 -2 extra"]

/-- A complete raw osculating file with one well-formed data row. -/
def wellFormedRaw : List String :=
  ["h", "h", "h", "h", "h", "h", "'1' 57600 2.5 0.1 10 80 73 95 3.3 0.1 -2"]

/-- The table the transform produces from `wellFormedRaw` (and from
`shortRowRaw`, whose missing fields are exactly the dropped fillers). -/
def wellFormedTable : Table :=
  [[("name", TCell.str "1"), ("a", TCell.str "2.5"), ("e", TCell.str "0.1"),
    ("inc", TCell.rad 10), ("Omega", TCell.rad 80), ("omega", TCell.rad 73),
    ("M", TCell.rad 95), ("epoch", TCell.str "57600")]]

/-- A loaded two-row table with numeric semi-major axes. -/
def sampleTable : Table :=
  [[("name", TCell.str "1"), ("a", TCell.num 2)],
   [("name", TCell.str "2"), ("a", TCell.num 5)]]

/-- A store whose current (osculating) catalog is `sampleTable`. -/
def sampleStore : Store where
  catalogs := [("osculating", sampleTable)]
  catalogs_configs := [("osculating", OSCULATING_CATALOG), ("synthetic", SYNTHETIC_CATALOG)]
  catalog_type := "osculating"
  rawFiles := []
  csvFiles := []
  network := []

/-- A loaded table with a duplicated identifier. -/
def dupTable : Table :=
  [[("name", TCell.str "7"), ("a", TCell.num 1)],
   [("name", TCell.str "7"), ("a", TCell.num 2)]]

/-- A store whose current catalog is `dupTable`. -/
def dupStore : Store where
  catalogs := [("osculating", dupTable)]
  catalogs_configs := [("osculating", OSCULATING_CATALOG)]
  catalog_type := "osculating"
  rawFiles := []
  csvFiles := []
  network := []

/-- A store with a table already in memory for the current type, the
raw source file on disk, but no cached CSV. -/
def loadedNoCsvStore : Store where
  catalogs := [("osculating", sampleTable)]
  catalogs_configs := [("osculating", OSCULATING_CATALOG), ("synthetic", SYNTHETIC_CATALOG)]
  catalog_type := "osculating"
  rawFiles := [("cache/allnum.cat", wellFormedRaw)]
  csvFiles := []
  network := []

/-- A store holding only cached CSVs (synthetic and osculating). -/
def csvOnlyStore : Store where
  catalogs := []
  catalogs_configs := [("osculating", OSCULATING_CATALOG), ("synthetic", SYNTHETIC_CATALOG)]
  catalog_type := "osculating"
  rawFiles := []
  csvFiles := [("cache/allnum.csv", wellFormedTable), ("cache/allsyn.csv", sampleTable)]
  network := []

/-- A store with nothing on disk and no reachable network. -/
def bareStore : Store where
  catalogs := []
  catalogs_configs := [("osculating", OSCULATING_CATALOG), ("synthetic", SYNTHETIC_CATALOG)]
  catalog_type := "osculating"
  rawFiles := []
  csvFiles := []
  network := []

/-- The store `buildCatalog` produces from `loadedNoCsvStore`. -/
def builtStore : Store :=
  { loadedNoCsvStore with csvFiles := [("cache/allnum.csv", wellFormedTable)] }

/-- The store `set_type "synthetic"` produces from `csvOnlyStore`. -/
def synStore : Store :=
  { csvOnlyStore with catalog_type := "synthetic", catalogs := [("synthetic", sampleTable)] }

/-- A cell a float column may hold (pandas compares NaN or numbers;
comparing a string column against a float raises instead). -/
def numericCell : TCell → Bool
  | TCell.na => true
  | TCell.num _ => true
  | TCell.str _ => false
  | TCell.rad _ => true

/-- The frame a query operation preserves: the current-type selector and
every other catalog type's loaded table. -/
def framePreserved (s s' : Store) : Prop :=
  s'.catalog_type = s.catalog_type ∧
  ∀ k, k ≠ s.catalog_type → lookupA k s'.catalogs = lookupA k s.catalogs

/-- A three-column descriptor for small concrete transforms. -/
def tinyCfg : Catalog where
  original_filename := "cache/tiny.cat"
  filename := "cache/tiny.csv"
  url := ""
  catalog_type := "tiny"
  skip_rows := 0
  columns := ["name", "inc", "del_1"]
  degree_columns := ["inc"]

/-- One raw line for `tinyCfg`. -/
def tinyRaw : List String := ["'1' 10 x"]

/-- The row `tinyCfg`'s transform produces from `tinyRaw`. -/
def tinyRow : Row := [("name", TCell.str "1"), ("inc", TCell.rad 10)]

/-! ## Association-list lemmas -/

theorem lookupA_cons {α : Type} (k k' : String) (v : α) (t : List (String × α)) :
    lookupA k ((k', v) :: t) = if k' = k then some v else lookupA k t := rfl

theorem lookupA_setA_self {α : Type} (l : List (String × α)) (k : String) (v : α) :
    lookupA k (setA l k v) = some v := by
  induction l with
  | nil => simp [setA, lookupA]
  | cons p t ih =>
    by_cases h : p.1 = k
    · simp [setA, h, lookupA]
    · simp only [setA]
      rw [if_neg h]
      cases p with
      | mk pk pv =>
        simp only at h
        rw [lookupA_cons, if_neg h]
        exact ih

theorem lookupA_setA_ne {α : Type} (l : List (String × α)) (k k' : String) (v : α)
    (h : k' ≠ k) : lookupA k' (setA l k v) = lookupA k' l := by
  induction l with
  | nil =>
    simp only [setA, lookupA]
    rw [if_neg (fun hh => h hh.symm)]
  | cons p t ih =>
    cases p with
    | mk pk pv =>
      by_cases hp : pk = k
      · simp only [setA, hp, if_true]
        rw [lookupA_cons, lookupA_cons, if_neg (fun hh => h hh.symm),
          if_neg (fun hh => h hh.symm)]
      · simp only [setA]
        rw [if_neg hp, lookupA_cons, lookupA_cons, ih]

theorem lookupA_mem {α : Type} {l : List (String × α)} {k : String} {v : α}
    (h : lookupA k l = some v) : (k, v) ∈ l := by
  induction l with
  | nil => exact absurd h (by simp [lookupA])
  | cons p t ih =>
    cases p with
    | mk pk pv =>
      by_cases hp : pk = k
      · rw [lookupA_cons, if_pos hp] at h
        injection h with h2
        rw [← hp, ← h2]
        exact List.mem_cons_self _ _
      · rw [lookupA_cons, if_neg hp] at h
        exact List.mem_cons_of_mem _ (ih h)

theorem lookupA_filter_key {α : Type} (p : String → Bool) (l : List (String × α)) (k : String)
    (hk : p k = true) :
    lookupA k (l.filter (fun q => p q.1)) = lookupA k l := by
  induction l with
  | nil => rfl
  | cons q t ih =>
    cases q with
    | mk qk qv =>
      by_cases hq : qk = k
      · rw [hq]
        simp [List.filter_cons, hk, lookupA_cons]
      · by_cases hpq : p qk = true
        · simp only [List.filter_cons, hpq, if_true]
          rw [lookupA_cons, lookupA_cons, if_neg hq, if_neg hq, ih]
        · simp only [List.filter_cons, hpq, Bool.false_eq_true, if_false]
          rw [ih, lookupA_cons, if_neg hq]

theorem lookupA_filter_key_none {α : Type} (p : String → Bool) (l : List (String × α)) (k : String)
    (hk : p k = false) :
    lookupA k (l.filter (fun q => p q.1)) = none := by
  induction l with
  | nil => rfl
  | cons q t ih =>
    cases q with
    | mk qk qv =>
      by_cases hpq : p qk = true
      · have hq : qk ≠ k := fun h => by rw [h, hk] at hpq; exact Bool.false_ne_true hpq
        simp only [List.filter_cons, hpq, if_true]
        rw [lookupA_cons, if_neg hq, ih]
      · simp only [List.filter_cons, hpq, Bool.false_eq_true, if_false]
        exact ih

theorem lookupA_append {α : Type} (l₁ l₂ : List (String × α)) (k : String) :
    lookupA k (l₁ ++ l₂) =
      match lookupA k l₁ with
      | some v => some v
      | none => lookupA k l₂ := by
  induction l₁ with
  | nil => simp [lookupA]
  | cons p t ih =>
    cases p with
    | mk pk pv =>
      by_cases hp : pk = k
      · rw [List.cons_append, lookupA_cons, lookupA_cons, if_pos hp, if_pos hp]
      · rw [List.cons_append, lookupA_cons, lookupA_cons, if_neg hp, if_neg hp, ih]

theorem lookupA_map_val {α β : Type} (f : α → β) (l : List (String × α)) (k : String) :
    lookupA k (l.map (fun p => (p.1, f p.2))) = (lookupA k l).map f := by
  induction l with
  | nil => rfl
  | cons p t ih =>
    cases p with
    | mk pk pv =>
      by_cases hp : pk = k
      · simp only [List.map_cons]
        rw [lookupA_cons, lookupA_cons, if_pos hp, if_pos hp]
        rfl
      · simp only [List.map_cons]
        rw [lookupA_cons, lookupA_cons, if_neg hp, if_neg hp, ih]

/-! ## Lemmas about `exMapM` and the transform stages -/

theorem exMapM_ok_length {α β : Type} {f : α → Except Err β} {l : List α} {l' : List β}
    (h : exMapM f l = .ok l') : l'.length = l.length := by
  induction l generalizing l' with
  | nil =>
    simp only [exMapM] at h
    injection h with h
    rw [← h]
    rfl
  | cons x xs ih =>
    simp only [exMapM] at h
    cases hfx : f x with
    | error e => rw [hfx] at h; exact absurd h (by simp)
    | ok y =>
      rw [hfx] at h
      cases hrest : exMapM f xs with
      | error e => rw [hrest] at h; exact absurd h (by simp)
      | ok ys =>
        rw [hrest] at h
        injection h with h
        rw [← h]
        simp [ih hrest]

theorem exMapM_ok_get {α β : Type} {f : α → Except Err β} {l : List α} {l' : List β}
    (h : exMapM f l = .ok l') :
    ∀ (i : Nat) (x : α), l[i]? = some x → ∃ y, f x = .ok y ∧ l'[i]? = some y := by
  induction l generalizing l' with
  | nil => intro i x hx; simp at hx
  | cons z zs ih =>
    intro i x hx
    simp only [exMapM] at h
    cases hfz : f z with
    | error e => rw [hfz] at h; exact absurd h (by simp)
    | ok y =>
      rw [hfz] at h
      cases hrest : exMapM f zs with
      | error e => rw [hrest] at h; exact absurd h (by simp)
      | ok ys =>
        rw [hrest] at h
        injection h with h
        cases i with
        | zero =>
          rw [List.getElem?_cons_zero] at hx
          injection hx with hx
          refine ⟨y, hx ▸ hfz, ?_⟩
          rw [← h, List.getElem?_cons_zero]
        | succ j =>
          rw [List.getElem?_cons_succ] at hx
          obtain ⟨w, hw, hw'⟩ := ih hrest j x hx
          refine ⟨w, hw, ?_⟩
          rw [← h, List.getElem?_cons_succ]
          exact hw'

theorem exMapM_error_mem {α β : Type} {f : α → Except Err β} {l : List α} {e : Err}
    (h : exMapM f l = .error e) : ∃ x ∈ l, f x = .error e := by
  induction l with
  | nil => simp [exMapM] at h
  | cons z zs ih =>
    simp only [exMapM] at h
    cases hfz : f z with
    | error e' =>
      rw [hfz] at h
      injection h with h
      exact ⟨z, List.mem_cons_self _ _, by rw [hfz, h]⟩
    | ok y =>
      rw [hfz] at h
      cases hrest : exMapM f zs with
      | error e' =>
        rw [hrest] at h
        injection h with h
        obtain ⟨x, hx, hfx⟩ := ih (by rw [hrest, h])
        exact ⟨x, List.mem_cons_of_mem _ hx, hfx⟩
      | ok ys => rw [hrest] at h; exact absurd h (by simp)

theorem exMapM_error_of_mem {α β : Type} {f : α → Except Err β} {l : List α} {x : α} {e : Err}
    (hx : x ∈ l) (hfx : f x = .error e) : ∃ e', exMapM f l = .error e' := by
  induction l with
  | nil => simp at hx
  | cons z zs ih =>
    rcases List.mem_cons.mp hx with hz | hz
    · subst hz
      exact ⟨e, by simp [exMapM, hfx]⟩
    · cases hfz : f z with
      | error e' => exact ⟨e', by simp [exMapM, hfz]⟩
      | ok y =>
        obtain ⟨e', he'⟩ := ih hz
        exact ⟨e', by simp [exMapM, hfz, he']⟩

theorem exMapM_ok_of_forall {α β : Type} {f : α → Except Err β} {l : List α}
    (h : ∀ x ∈ l, ∃ y, f x = .ok y) : ∃ l', exMapM f l = .ok l' := by
  induction l with
  | nil => exact ⟨[], rfl⟩
  | cons z zs ih =>
    obtain ⟨y, hy⟩ := h z (List.mem_cons_self _ _)
    obtain ⟨ys, hys⟩ := ih (fun x hx => h x (List.mem_cons_of_mem _ hx))
    exact ⟨y :: ys, by simp [exMapM, hy, hys]⟩

theorem padRow_error {cols fields : List String} {e : Err}
    (h : padRow cols fields = .error e) :
    e = .tokenizing ∧ cols.length < fields.length := by
  by_cases hlt : cols.length < fields.length
  · rw [padRow, if_pos hlt] at h
    injection h with h
    exact ⟨h.symm, hlt⟩
  · rw [padRow, if_neg hlt] at h
    exact absurd h (by simp)

theorem padRow_ok {cols fields : List String} (h : ¬ cols.length < fields.length) :
    padRow cols fields =
      .ok (cols.zip (fields.map TCell.str ++ List.replicate (cols.length - fields.length) TCell.na)) := by
  rw [padRow, if_neg h]

theorem lookupA_zip {cols : List String} {cells : List TCell} {j : Nat} {c : String}
    (hnd : cols.Nodup) (hlen : cells.length = cols.length)
    (hj : cols[j]? = some c) :
    lookupA c (cols.zip cells) = cells[j]? := by
  induction cols generalizing cells j with
  | nil => simp at hj
  | cons c0 cs ih =>
    cases cells with
    | nil => simp at hlen
    | cons x xs =>
      simp only [List.length_cons, Nat.succ.injEq] at hlen
      cases j with
      | zero =>
        simp only [List.getElem?_cons_zero, Option.some.injEq] at hj
        subst hj
        simp [List.zip_cons_cons, lookupA_cons]
      | succ j' =>
        simp only [List.getElem?_cons_succ] at hj
        have hc : c ∈ cs := List.getElem?_mem hj
        have hne : c0 ≠ c := fun h => (List.nodup_cons.mp hnd).1 (h ▸ hc)
        rw [List.zip_cons_cons, lookupA_cons, if_neg hne, List.getElem?_cons_succ]
        exact ih (List.nodup_cons.mp hnd).2 hlen hj

theorem convertCell_error {v : TCell} {e : Err} (h : convertCell v = .error e) :
    e = .format ∧ ∃ s, v = TCell.str s ∧ parseFloat s = none := by
  cases v with
  | na => exact absurd h (by simp [convertCell])
  | str s =>
    cases hp : parseFloat s with
    | none =>
      rw [convertCell, hp] at h
      injection h with h
      exact ⟨h.symm, s, rfl, hp⟩
    | some q => rw [convertCell, hp] at h; exact absurd h (by simp)
  | num q => exact absurd h (by simp [convertCell])
  | rad q => exact absurd h (by simp [convertCell])

theorem convertPair_error {degs : List String} {p : String × TCell} {e : Err}
    (h : convertPair degs p = .error e) : e = .format := by
  by_cases hd : degs.contains p.1
  · rw [convertPair, if_pos hd] at h
    cases hc : convertCell p.2 with
    | error e' =>
      rw [hc] at h
      injection h with h
      exact ((convertCell_error hc).1 ▸ h).symm
    | ok c => rw [hc] at h; exact absurd h (by simp)
  · rw [convertPair, if_neg hd] at h
    exact absurd h (by simp)

theorem convertRow_error {degs : List String} {r : Row} {e : Err}
    (h : convertRow degs r = .error e) : e = .format := by
  obtain ⟨p, _, hp⟩ := exMapM_error_mem h
  exact convertPair_error hp

theorem convertPair_ok_key {degs : List String} {p q : String × TCell}
    (h : convertPair degs p = .ok q) : q.1 = p.1 := by
  by_cases hd : degs.contains p.1
  · rw [convertPair, if_pos hd] at h
    cases hc : convertCell p.2 with
    | error e => rw [hc] at h; exact absurd h (by simp)
    | ok c =>
      rw [hc] at h
      injection h with h
      rw [← h]
  · rw [convertPair, if_neg hd] at h
    injection h with h
    rw [← h]

theorem convertRow_ok_lookup {degs : List String} {r r' : Row} {c : String}
    (h : convertRow degs r = .ok r') (hc : degs.contains c = true) :
    ∀ v, lookupA c r = some v → ∃ w, convertCell v = .ok w ∧ lookupA c r' = some w := by
  induction r generalizing r' with
  | nil => intro v hv; simp [lookupA] at hv
  | cons p ps ih =>
    intro v hv
    rw [convertRow] at h
    simp only [exMapM] at h
    cases hfp : convertPair degs p with
    | error e => rw [hfp] at h; exact absurd h (by simp)
    | ok q =>
      rw [hfp] at h
      cases hrest : exMapM (convertPair degs) ps with
      | error e => rw [hrest] at h; exact absurd h (by simp)
      | ok qs =>
        rw [hrest] at h
        injection h with h
        cases p with
        | mk pk pv =>
          by_cases hpk : pk = c
          · rw [lookupA_cons, if_pos hpk] at hv
            injection hv with hv
            have hkey : q.1 = pk := convertPair_ok_key hfp
            rw [convertPair, if_pos (by rw [hpk]; exact hc)] at hfp
            cases hcc : convertCell pv with
            | error e => rw [hcc] at hfp; exact absurd hfp (by simp)
            | ok w =>
              rw [hcc] at hfp
              injection hfp with hfp
              refine ⟨w, hv ▸ hcc, ?_⟩
              rw [← h, ← hfp]
              show (if pk = c then some w else lookupA c qs) = some w
              rw [if_pos hpk]
          · rw [lookupA_cons, if_neg hpk] at hv
            obtain ⟨w, hw, hw'⟩ := ih hrest v hv
            refine ⟨w, hw, ?_⟩
            have hkey : q.1 = pk := convertPair_ok_key hfp
            rw [← h, lookupA_cons (α := TCell), if_neg (hkey ▸ hpk)]
            exact hw'

theorem lookupA_moveEpoch (r : Row) (c : String) :
    lookupA c (moveEpochRow r) = lookupA c r := by
  rw [moveEpochRow]
  by_cases hany : r.any (fun p => p.1 = "epoch") = true
  · rw [if_pos hany, lookupA_append]
    by_cases hc : c = "epoch"
    · subst hc
      rw [lookupA_filter_key_none (fun k => decide (k ≠ "epoch")) r "epoch" (by decide)]
      rw [lookupA_filter_key (fun k => decide (k = "epoch")) r "epoch" (by decide)]
    · rw [lookupA_filter_key (fun k => decide (k ≠ "epoch")) r c (by simp [hc])]
      cases hr : lookupA c r with
      | some v => rfl
      | none =>
        simp only []
        rw [lookupA_filter_key_none (fun k => decide (k = "epoch")) r c (by simp [hc])]
  · rw [if_neg hany]

theorem transform_ok_elim {cfg : Catalog} {lines : List String} {t : Table}
    (h : transform_astdys_catalog cfg lines = .ok t) :
    ∃ parsed converted,
      exMapM (padRow cfg.columns) (dataRows cfg.skip_rows lines) = .ok parsed ∧
      cfg.degree_columns.all (fun c => (keptColumns cfg).contains c) = true ∧
      exMapM (convertRow cfg.degree_columns) ((parsed.map stripRowQuotes).map dropDelCols) = .ok converted ∧
      t = converted.map moveEpochRow := by
  rw [transform_astdys_catalog] at h
  cases hp : exMapM (padRow cfg.columns) (dataRows cfg.skip_rows lines) with
  | error e => rw [hp] at h; exact absurd h (by simp)
  | ok parsed =>
    rw [hp] at h
    simp only [] at h
    by_cases hall : cfg.degree_columns.all (fun c => (keptColumns cfg).contains c) = true
    · rw [if_pos hall] at h
      cases hcv : exMapM (convertRow cfg.degree_columns) ((parsed.map stripRowQuotes).map dropDelCols) with
      | error e => rw [hcv] at h; exact absurd h (by simp)
      | ok converted =>
        rw [hcv] at h
        injection h with h
        exact ⟨parsed, converted, rfl, hall, hcv, h.symm⟩
    · rw [if_neg hall] at h
      exact absurd h (by simp)

theorem transform_error_cases {cfg : Catalog} {lines : List String} {e : Err}
    (h : transform_astdys_catalog cfg lines = .error e) :
    e = .tokenizing ∨ e = .keyError ∨ e = .format := by
  rw [transform_astdys_catalog] at h
  cases hp : exMapM (padRow cfg.columns) (dataRows cfg.skip_rows lines) with
  | error e' =>
    rw [hp] at h
    injection h with h
    obtain ⟨x, _, hx⟩ := exMapM_error_mem hp
    exact Or.inl (h ▸ (padRow_error hx).1)
  | ok parsed =>
    rw [hp] at h
    simp only [] at h
    by_cases hall : cfg.degree_columns.all (fun c => (keptColumns cfg).contains c) = true
    · rw [if_pos hall] at h
      cases hcv : exMapM (convertRow cfg.degree_columns) ((parsed.map stripRowQuotes).map dropDelCols) with
      | error e' =>
        rw [hcv] at h
        injection h with h
        obtain ⟨x, _, hx⟩ := exMapM_error_mem hcv
        exact Or.inr (Or.inr (h ▸ convertRow_error hx))
      | ok converted => rw [hcv] at h; exact absurd h (by simp)
    · rw [if_neg hall] at h
      injection h with h
      exact Or.inr (Or.inl h.symm)

/-! ## Lemmas about the store operations -/

theorem buildCatalog_elim (s : Store) :
    (∀ e s', buildCatalog s = (.error e, s') →
      s'.csvFiles = s.csvFiles ∧ s'.catalogs = s.catalogs ∧
      s'.catalog_type = s.catalog_type ∧ s'.catalogs_configs = s.catalogs_configs ∧
      (e = .attrError ∨ e = .download ∨ e = .fileNotFound ∨
        e = .tokenizing ∨ e = .keyError ∨ e = .format)) ∧
    (∀ s', buildCatalog s = (.ok (), s') →
      (∃ cfg lines t, s.catalogConfig = some cfg ∧
        lookupA cfg.original_filename s'.rawFiles = some lines ∧
        transform_astdys_catalog cfg lines = .ok t ∧
        s'.csvFiles = setA s.csvFiles cfg.filename t) ∧
      s'.catalogs = s.catalogs ∧ s'.catalog_type = s.catalog_type ∧
      s'.catalogs_configs = s.catalogs_configs) := by
  cases hcfg : s.catalogConfig with
  | none =>
    constructor
    · intro e s' h
      rw [buildCatalog, hcfg] at h
      injection h with h1 h2
      injection h1 with h1
      exact ⟨h2 ▸ rfl, h2 ▸ rfl, h2 ▸ rfl, h2 ▸ rfl, Or.inl h1.symm⟩
    · intro s' h
      rw [buildCatalog, hcfg] at h
      exact absurd h (by simp)
  | some cfg =>
    constructor
    · intro e s' h
      rw [buildCatalog, hcfg] at h
      cases hraw : lookupA cfg.original_filename s.rawFiles with
      | some lines =>
        simp only [hraw] at h
        cases htr : transform_astdys_catalog cfg lines with
        | error e' =>
          rw [htr] at h
          injection h with h1 h2
          injection h1 with h1
          rcases transform_error_cases (htr.trans (by rw [h1])) with h' | h' | h'
          · exact ⟨h2 ▸ rfl, h2 ▸ rfl, h2 ▸ rfl, h2 ▸ rfl, Or.inr (Or.inr (Or.inr (Or.inl h')))⟩
          · exact ⟨h2 ▸ rfl, h2 ▸ rfl, h2 ▸ rfl, h2 ▸ rfl, Or.inr (Or.inr (Or.inr (Or.inr (Or.inl h'))))⟩
          · exact ⟨h2 ▸ rfl, h2 ▸ rfl, h2 ▸ rfl, h2 ▸ rfl, Or.inr (Or.inr (Or.inr (Or.inr (Or.inr h'))))⟩
        | ok t => rw [htr] at h; exact absurd h (by simp)
      | none =>
        cases hnet : lookupA cfg.url s.network with
        | none =>
          simp only [hraw, hnet] at h
          injection h with h1 h2
          injection h1 with h1
          exact ⟨h2 ▸ rfl, h2 ▸ rfl, h2 ▸ rfl, h2 ▸ rfl, Or.inr (Or.inl h1.symm)⟩
        | some content =>
          simp only [hraw, hnet, lookupA_setA_self] at h
          cases htr : transform_astdys_catalog cfg content with
          | error e' =>
            rw [htr] at h
            injection h with h1 h2
            injection h1 with h1
            rcases transform_error_cases (htr.trans (by rw [h1])) with h' | h' | h'
            · exact ⟨h2 ▸ rfl, h2 ▸ rfl, h2 ▸ rfl, h2 ▸ rfl, Or.inr (Or.inr (Or.inr (Or.inl h')))⟩
            · exact ⟨h2 ▸ rfl, h2 ▸ rfl, h2 ▸ rfl, h2 ▸ rfl, Or.inr (Or.inr (Or.inr (Or.inr (Or.inl h'))))⟩
            · exact ⟨h2 ▸ rfl, h2 ▸ rfl, h2 ▸ rfl, h2 ▸ rfl, Or.inr (Or.inr (Or.inr (Or.inr (Or.inr h'))))⟩
          | ok t => rw [htr] at h; exact absurd h (by simp)
    · intro s' h
      rw [buildCatalog, hcfg] at h
      cases hraw : lookupA cfg.original_filename s.rawFiles with
      | some lines =>
        simp only [hraw] at h
        cases htr : transform_astdys_catalog cfg lines with
        | error e' => rw [htr] at h; exact absurd h (by simp)
        | ok t =>
          rw [htr] at h
          injection h with h1 h2
          refine ⟨⟨cfg, lines, t, rfl, ?_, htr, ?_⟩, ?_, ?_, ?_⟩
          · rw [← h2]; exact hraw
          · rw [← h2]
          · rw [← h2]
          · rw [← h2]
          · rw [← h2]
      | none =>
        cases hnet : lookupA cfg.url s.network with
        | none =>
          simp only [hraw, hnet] at h
          exact absurd h (by simp)
        | some content =>
          simp only [hraw, hnet, lookupA_setA_self] at h
          cases htr : transform_astdys_catalog cfg content with
          | error e' => rw [htr] at h; exact absurd h (by simp)
          | ok t =>
            rw [htr] at h
            injection h with h1 h2
            refine ⟨⟨cfg, content, t, rfl, ?_, htr, ?_⟩, ?_, ?_, ?_⟩
            · rw [← h2]; exact lookupA_setA_self _ _ _
            · rw [← h2]
            · rw [← h2]
            · rw [← h2]
            · rw [← h2]

theorem load_branch_csv_some {s : Store} {cfg : Catalog} {t : Table}
    (hcfg : s.catalogConfig = some cfg) (hcsv : lookupA cfg.filename s.csvFiles = some t) :
    load s = (.ok (), { s with catalogs := setA s.catalogs s.catalog_type t }) := by
  simp [load, hcfg, hcsv, ite_self]

theorem load_branch_df_some_csv_none {s : Store} {cfg : Catalog}
    (hcfg : s.catalogConfig = some cfg) (hdf : ¬ s.catalogDf = none)
    (hcsv : lookupA cfg.filename s.csvFiles = none) :
    load s = (.error .fileNotFound, s) := by
  simp [load, hcfg, hcsv, hdf]

theorem load_branch_build {s : Store} {cfg : Catalog}
    (hcfg : s.catalogConfig = some cfg) (hdf : s.catalogDf = none)
    (hcsv : lookupA cfg.filename s.csvFiles = none) :
    load s =
      match buildCatalog s with
      | (.error e, s₁) => (.error e, s₁)
      | (.ok _, s₁) =>
        match lookupA cfg.filename s₁.csvFiles with
        | none => (.error .fileNotFound, s₁)
        | some t => (.ok (), { s₁ with catalogs := setA s₁.catalogs s.catalog_type t }) := by
  rw [load, hcfg]
  simp only [hdf, hcsv, if_true, if_pos rfl]

theorem load_branch_build_error {s : Store} {cfg : Catalog} {e : Err} {s₁ : Store}
    (hcfg : s.catalogConfig = some cfg) (hdf : s.catalogDf = none)
    (hcsv : lookupA cfg.filename s.csvFiles = none)
    (hb : buildCatalog s = (.error e, s₁)) :
    load s = (.error e, s₁) := by
  rw [load_branch_build hcfg hdf hcsv, hb]

theorem load_branch_build_ok_none {s : Store} {cfg : Catalog} {s₁ : Store}
    (hcfg : s.catalogConfig = some cfg) (hdf : s.catalogDf = none)
    (hcsv : lookupA cfg.filename s.csvFiles = none)
    (hb : buildCatalog s = (.ok (), s₁))
    (h1 : lookupA cfg.filename s₁.csvFiles = none) :
    load s = (.error .fileNotFound, s₁) := by
  rw [load_branch_build hcfg hdf hcsv, hb]
  show (match lookupA cfg.filename s₁.csvFiles with
        | none => ((.error .fileNotFound : Except Err Unit), s₁)
        | some t => (.ok (), { s₁ with catalogs := setA s₁.catalogs s.catalog_type t })) = _
  rw [h1]

theorem load_branch_build_ok_some {s : Store} {cfg : Catalog} {s₁ : Store} {t : Table}
    (hcfg : s.catalogConfig = some cfg) (hdf : s.catalogDf = none)
    (hcsv : lookupA cfg.filename s.csvFiles = none)
    (hb : buildCatalog s = (.ok (), s₁))
    (h1 : lookupA cfg.filename s₁.csvFiles = some t) :
    load s = (.ok (), { s₁ with catalogs := setA s₁.catalogs s.catalog_type t }) := by
  rw [load_branch_build hcfg hdf hcsv, hb]
  show (match lookupA cfg.filename s₁.csvFiles with
        | none => ((.error .fileNotFound : Except Err Unit), s₁)
        | some t => (.ok (), { s₁ with catalogs := setA s₁.catalogs s.catalog_type t })) = _
  rw [h1]

theorem load_ok_elim {s s' : Store} (h : load s = (.ok (), s')) :
    ∃ cfg t, s.catalogConfig = some cfg ∧
      lookupA cfg.filename s'.csvFiles = some t ∧
      lookupA s.catalog_type s'.catalogs = some t ∧
      s'.catalog_type = s.catalog_type ∧ s'.catalogs_configs = s.catalogs_configs := by
  cases hcfg : s.catalogConfig with
  | none => rw [load, hcfg] at h; exact absurd h (by simp)
  | some cfg =>
    cases hcsv : lookupA cfg.filename s.csvFiles with
    | some t =>
      rw [load_branch_csv_some hcfg hcsv] at h
      injection h with _ h2
      refine ⟨cfg, t, rfl, ?_, ?_, ?_, ?_⟩
      · rw [← h2]; exact hcsv
      · rw [← h2]; exact lookupA_setA_self _ _ _
      · rw [← h2]
      · rw [← h2]
    | none =>
      by_cases hdf : s.catalogDf = none
      · rcases hb : buildCatalog s with ⟨r, s₁⟩
        cases r with
        | error e =>
          rw [load_branch_build_error hcfg hdf hcsv hb] at h
          exact absurd h (by simp)
        | ok u =>
          cases u
          obtain ⟨_, hcat', hct', hcfg'⟩ := (buildCatalog_elim s).2 s₁ hb
          cases hcsv1 : lookupA cfg.filename s₁.csvFiles with
          | none =>
            rw [load_branch_build_ok_none hcfg hdf hcsv hb hcsv1] at h
            exact absurd h (by simp)
          | some t =>
            rw [load_branch_build_ok_some hcfg hdf hcsv hb hcsv1] at h
            injection h with _ h2
            refine ⟨cfg, t, rfl, ?_, ?_, ?_, ?_⟩
            · rw [← h2]; exact hcsv1
            · rw [← h2]; exact lookupA_setA_self _ _ _
            · rw [← h2]; exact hct'
            · rw [← h2]; exact hcfg'
      · rw [load_branch_df_some_csv_none hcfg hdf hcsv] at h
        exact absurd h (by simp)

theorem load_frame (s : Store) :
    (load s).2.catalog_type = s.catalog_type ∧
    (load s).2.catalogs_configs = s.catalogs_configs ∧
    ∀ k, k ≠ s.catalog_type → lookupA k (load s).2.catalogs = lookupA k s.catalogs := by
  cases hcfg : s.catalogConfig with
  | none => rw [load, hcfg]; exact ⟨rfl, rfl, fun k hk => rfl⟩
  | some cfg =>
    cases hcsv : lookupA cfg.filename s.csvFiles with
    | some t =>
      rw [load_branch_csv_some hcfg hcsv]
      exact ⟨rfl, rfl, fun k hk => lookupA_setA_ne _ _ _ _ hk⟩
    | none =>
      by_cases hdf : s.catalogDf = none
      · rcases hb : buildCatalog s with ⟨r, s₁⟩
        cases r with
        | error e =>
          rw [load_branch_build_error hcfg hdf hcsv hb]
          obtain ⟨_, hcat', hct', hcfg', _⟩ := (buildCatalog_elim s).1 e s₁ hb
          exact ⟨hct', hcfg', fun k hk => by rw [hcat']⟩
        | ok u =>
          cases u
          obtain ⟨_, hcat', hct', hcfg'⟩ := (buildCatalog_elim s).2 s₁ hb
          cases hcsv1 : lookupA cfg.filename s₁.csvFiles with
          | none =>
            rw [load_branch_build_ok_none hcfg hdf hcsv hb hcsv1]
            exact ⟨hct', hcfg', fun k hk => by rw [hcat']⟩
          | some t =>
            rw [load_branch_build_ok_some hcfg hdf hcsv hb hcsv1]
            refine ⟨hct', hcfg', fun k hk => ?_⟩
            have h2 : lookupA k (setA s₁.catalogs s.catalog_type t) = lookupA k s₁.catalogs :=
              lookupA_setA_ne _ _ _ _ hk
            show lookupA k (setA s₁.catalogs s.catalog_type t) = lookupA k s.catalogs
            rw [h2, hcat']
      · rw [load_branch_df_some_csv_none hcfg hdf hcsv]
        exact ⟨rfl, rfl, fun k hk => rfl⟩

theorem load_error_not_validation {s : Store} {e : Err} {s' : Store}
    (h : load s = (.error e, s')) : e ≠ .validation := by
  cases hcfg : s.catalogConfig with
  | none =>
    rw [load, hcfg] at h
    injection h with h1 _
    injection h1 with h1
    rw [← h1]
    decide
  | some cfg =>
    cases hcsv : lookupA cfg.filename s.csvFiles with
    | some t =>
      rw [load_branch_csv_some hcfg hcsv] at h
      exact absurd h (by simp)
    | none =>
      by_cases hdf : s.catalogDf = none
      · rcases hb : buildCatalog s with ⟨r, s₁⟩
        cases r with
        | error e' =>
          rw [load_branch_build_error hcfg hdf hcsv hb] at h
          injection h with h1 _
          injection h1 with h1
          obtain ⟨_, _, _, _, hcls⟩ := (buildCatalog_elim s).1 e' s₁ hb
          rw [← h1]
          rcases hcls with h' | h' | h' | h' | h' | h' <;> rw [h'] <;> decide
        | ok u =>
          cases u
          cases hcsv1 : lookupA cfg.filename s₁.csvFiles with
          | none =>
            rw [load_branch_build_ok_none hcfg hdf hcsv hb hcsv1] at h
            injection h with h1 _
            injection h1 with h1
            rw [← h1]
            decide
          | some t =>
            rw [load_branch_build_ok_some hcfg hdf hcsv hb hcsv1] at h
            exact absurd h (by simp)
      · rw [load_branch_df_some_csv_none hcfg hdf hcsv] at h
        injection h with h1 _
        injection h1 with h1
        rw [← h1]
        decide

theorem ensureLoaded_some {s : Store} {t : Table} (h : s.catalogDf = some t) :
    ensureLoaded s = (.ok (), s) := by
  rw [ensureLoaded, if_neg (by simp [h])]

theorem ensureLoaded_frame (s : Store) :
    (ensureLoaded s).2.catalog_type = s.catalog_type ∧
    (ensureLoaded s).2.catalogs_configs = s.catalogs_configs ∧
    ∀ k, k ≠ s.catalog_type → lookupA k (ensureLoaded s).2.catalogs = lookupA k s.catalogs := by
  rw [ensureLoaded]
  by_cases hdf : s.catalogDf = none
  · rw [if_pos hdf]; exact load_frame s
  · rw [if_neg hdf]; exact ⟨rfl, rfl, fun k hk => rfl⟩

theorem ensureLoaded_error_not_validation {s : Store} {e : Err} {s' : Store}
    (h : ensureLoaded s = (.error e, s')) : e ≠ .validation := by
  rw [ensureLoaded] at h
  by_cases hdf : s.catalogDf = none
  · rw [if_pos hdf] at h; exact load_error_not_validation h
  · rw [if_neg hdf] at h; exact absurd h (by simp)

/-! ## Claim theorems -/

/-- C8: `mjdToDate(0)` is 1858-11-17 00:00:00 (integral ordinal whose
civil date reads back as 1858-11-17, zero fractional day), and
`mjdToDate` is monotonic non-decreasing in its argument. -/
theorem mjd_epoch_and_monotone :
    (convert_mjd_to_datetime 0 = ((toordinal 1858 11 17 : ℤ) : ℚ) ∧
      civilOfOrdinal (toordinal 1858 11 17) = (1858, 11, 17)) ∧
    ∀ m₁ m₂ : ℚ, m₁ ≤ m₂ → convert_mjd_to_datetime m₁ ≤ convert_mjd_to_datetime m₂ := by
  refine ⟨⟨by rw [convert_mjd_to_datetime, add_zero], by decide⟩, fun m₁ m₂ h => ?_⟩
  rw [convert_mjd_to_datetime, convert_mjd_to_datetime]
  exact add_le_add_left h _

theorem mjd_epoch_and_monotone_witness :
    (0 : ℚ) ≤ 59215 ∧ convert_mjd_to_datetime 0 ≤ convert_mjd_to_datetime 59215 :=
  ⟨by norm_num, mjd_epoch_and_monotone.2 0 59215 (by norm_num)⟩

/-- C7: a failed `build()` leaves the cached-CSV state untouched; a
successful one writes exactly the table produced by a fully successful
transform of the raw file. -/
theorem build_writes_csv_only_after_success (s : Store) :
    (∀ e s', buildCatalog s = (.error e, s') → s'.csvFiles = s.csvFiles) ∧
    (∀ s', buildCatalog s = (.ok (), s') →
      ∃ cfg lines t, s.catalogConfig = some cfg ∧
        lookupA cfg.original_filename s'.rawFiles = some lines ∧
        transform_astdys_catalog cfg lines = .ok t ∧
        s'.csvFiles = setA s.csvFiles cfg.filename t) :=
  ⟨fun e s' h => ((buildCatalog_elim s).1 e s' h).1,
   fun s' h => ((buildCatalog_elim s).2 s' h).1⟩

theorem build_writes_csv_only_after_success_witness :
    (buildCatalog bareStore = (.error .download, bareStore) ∧
      bareStore.csvFiles = bareStore.csvFiles) ∧
    ∃ cfg lines t, loadedNoCsvStore.catalogConfig = some cfg ∧
      lookupA cfg.original_filename builtStore.rawFiles = some lines ∧
      transform_astdys_catalog cfg lines = .ok t ∧
      builtStore.csvFiles = setA loadedNoCsvStore.csvFiles cfg.filename t :=
  ⟨⟨by decide, (build_writes_csv_only_after_success bareStore).1 .download bareStore (by decide)⟩,
   (build_writes_csv_only_after_success loadedNoCsvStore).2 builtStore (by decide)⟩

/-- C6 counterexample: with a table already in memory and the cached CSV
absent, `load()` does not call `build()` (although a build would have
succeeded from the raw file on disk) and instead fails reading the
missing CSV. -/
theorem load_counterexample :
    lookupA OSCULATING_CATALOG.filename loadedNoCsvStore.csvFiles = none ∧
    (buildCatalog loadedNoCsvStore).1 = .ok () ∧
    load loadedNoCsvStore = (.error .fileNotFound, loadedNoCsvStore) := by decide

/-- C6 (amended): `load()` calls `build()` only when no in-memory table
exists for the current type AND the CSV is absent; when the CSV exists
it is read into memory, replacing the current entry; when a table is in
memory but the CSV is absent, `load()` fails with file-not-found instead
of building. -/
theorem load_builds_only_when_unloaded (s : Store) (cfg : Catalog)
    (hcfg : s.catalogConfig = some cfg) :
    (s.catalogDf = none → lookupA cfg.filename s.csvFiles = none →
      load s =
        match buildCatalog s with
        | (.error e, s₁) => (.error e, s₁)
        | (.ok _, s₁) =>
          match lookupA cfg.filename s₁.csvFiles with
          | none => (.error .fileNotFound, s₁)
          | some t => (.ok (), { s₁ with catalogs := setA s₁.catalogs s.catalog_type t })) ∧
    (∀ t, lookupA cfg.filename s.csvFiles = some t →
      load s = (.ok (), { s with catalogs := setA s.catalogs s.catalog_type t })) ∧
    (s.catalogDf ≠ none → lookupA cfg.filename s.csvFiles = none →
      load s = (.error .fileNotFound, s)) :=
  ⟨fun hdf hcsv => load_branch_build hcfg hdf hcsv,
   fun t hcsv => load_branch_csv_some hcfg hcsv,
   fun hdf hcsv => load_branch_df_some_csv_none hcfg hdf hcsv⟩

theorem load_builds_only_when_unloaded_witness :
    load csvOnlyStore =
      (.ok (), { csvOnlyStore with
        catalogs := setA csvOnlyStore.catalogs csvOnlyStore.catalog_type wellFormedTable }) :=
  (load_builds_only_when_unloaded csvOnlyStore OSCULATING_CATALOG (by decide)).2.1
    wellFormedTable (by decide)

/-- C5: `set_type` on an unknown key fails with the configuration error
and changes nothing; on a known key it retargets the selector and
immediately loads, so that on success the in-memory entry for the new
type equals the cached CSV's content on disk at return. -/
theorem set_type_eager_switch (ct : String) (s : Store) :
    (lookupA ct s.catalogs_configs = none → set_type ct s = (.error .config, s)) ∧
    (∀ cfg, lookupA ct s.catalogs_configs = some cfg →
      set_type ct s = load { s with catalog_type := ct } ∧
      ∀ s', set_type ct s = (.ok (), s') →
        s'.catalog_type = ct ∧
        ∃ t, lookupA cfg.filename s'.csvFiles = some t ∧
          lookupA ct s'.catalogs = some t) := by
  constructor
  · intro h
    rw [set_type, if_neg (by simp [h])]
  · intro cfg hcfg
    have heq : set_type ct s = load { s with catalog_type := ct } := by
      rw [set_type, if_pos (by simp [hcfg])]
    refine ⟨heq, fun s' h => ?_⟩
    rw [heq] at h
    obtain ⟨cfg', t, hcfg', hcsv', hcat', hct', _⟩ := load_ok_elim h
    have h0 : lookupA ct s.catalogs_configs = some cfg' := hcfg'
    rw [hcfg] at h0
    have hcc : cfg = cfg' := Option.some.inj h0
    rw [hcc]
    exact ⟨hct', t, hcsv', hcat'⟩

theorem set_type_eager_switch_witness :
    set_type "bogus" sampleStore = (.error .config, sampleStore) ∧
    (synStore.catalog_type = "synthetic" ∧
      ∃ t, lookupA SYNTHETIC_CATALOG.filename synStore.csvFiles = some t ∧
        lookupA "synthetic" synStore.catalogs = some t) :=
  ⟨(set_type_eager_switch "bogus" sampleStore).1 (by decide),
   ((set_type_eager_switch "synthetic" csvOnlyStore).2 SYNTHETIC_CATALOG (by decide)).2
     synStore (by decide)⟩

theorem ensureLoaded_ok_df {s s₁ : Store} (he : ensureLoaded s = (.ok (), s₁)) :
    ∃ t, s₁.catalogDf = some t := by
  rw [ensureLoaded] at he
  by_cases hdf : s.catalogDf = none
  · rw [if_pos hdf] at he
    obtain ⟨cfg, t, _, _, hcat, hct, _⟩ := load_ok_elim he
    refine ⟨t, ?_⟩
    rw [Store.catalogDf, hct]
    exact hcat
  · rw [if_neg hdf] at he
    injection he with _ h2
    cases hd : s.catalogDf with
    | none => exact absurd hd hdf
    | some t => exact ⟨t, h2 ▸ hd⟩

theorem search_shape_err {identifier : Ident} {s : Store} {e : Err} {s₁ : Store}
    (he : ensureLoaded s = (.error e, s₁)) :
    search identifier s = (.error e, s₁) := by
  rw [search, he]

theorem search_shape_ok {identifier : Ident} {s s₁ : Store} {t : Table}
    (he : ensureLoaded s = (.ok (), s₁)) (hdf : s₁.catalogDf = some t) :
    search identifier s = (.ok ((t.filter (nameMatches identifier.toStr)).head?), s₁) := by
  rw [search, he]
  show (match s₁.catalogDf with
        | none => ((.error .attrError : Except Err (Option Row)), s₁)
        | some t => (.ok ((t.filter (nameMatches identifier.toStr)).head?), s₁)) = _
  rw [hdf]

theorem searchMany_shape_ok {identifiers : List Ident} {s s₁ : Store} {t : Table}
    (he : ensureLoaded s = (.ok (), s₁)) (hdf : s₁.catalogDf = some t) :
    searchMany identifiers s =
      (.ok ((t.filter (fun r =>
          match lookupA "name" r with
          | some (TCell.str n) => (identifiers.map Ident.toStr).contains n
          | _ => false)).foldl (fun acc r =>
            match lookupA "name" r with
            | some (TCell.str n) => setA acc n r
            | _ => acc) []), s₁) := by
  rw [searchMany, he]
  show (match s₁.catalogDf with
        | none => ((.error .attrError : Except Err (List (String × Row))), s₁)
        | some t =>
          (.ok ((t.filter (fun r =>
            match lookupA "name" r with
            | some (TCell.str n) => (identifiers.map Ident.toStr).contains n
            | _ => false)).foldl (fun acc r =>
              match lookupA "name" r with
              | some (TCell.str n) => setA acc n r
              | _ => acc) []), s₁)) = _
  rw [hdf]

theorem search_by_axis_shape_err {axis sigma : ℚ} {s : Store} {e : Err} {s₁ : Store}
    (hax : ¬ axis ≤ 0) (hsig : ¬ sigma ≤ 0)
    (he : ensureLoaded s = (.error e, s₁)) :
    search_by_axis axis sigma s = (.error e, s₁) := by
  rw [search_by_axis, if_neg hax, if_neg hsig, he]

theorem search_by_axis_shape_ok {axis sigma : ℚ} {s s₁ : Store} {t : Table}
    (hax : ¬ axis ≤ 0) (hsig : ¬ sigma ≤ 0)
    (he : ensureLoaded s = (.ok (), s₁)) (hdf : s₁.catalogDf = some t) :
    search_by_axis axis sigma s =
      (.ok (t.filter (axisMatches (axis - sigma) (axis + sigma))), s₁) := by
  rw [search_by_axis, if_neg hax, if_neg hsig, he]
  show (match s₁.catalogDf with
        | none => ((.error .attrError : Except Err Table), s₁)
        | some t => (.ok (t.filter (axisMatches (axis - sigma) (axis + sigma))), s₁)) = _
  rw [hdf]

theorem get_catalog_shape_err {s : Store} {e : Err} {s₁ : Store}
    (he : ensureLoaded s = (.error e, s₁)) :
    get_catalog s = (.error e, s₁) := by
  rw [get_catalog, he]

theorem get_catalog_shape_ok {s s₁ : Store}
    (he : ensureLoaded s = (.ok (), s₁)) :
    get_catalog s = (.ok s₁.catalogDf, s₁) := by
  rw [get_catalog, he]

theorem search_snd (identifier : Ident) (s : Store) :
    (search identifier s).2 = (ensureLoaded s).2 := by
  rcases he : ensureLoaded s with ⟨r, s₁⟩
  cases r with
  | error e => rw [search_shape_err he]
  | ok u =>
    cases u
    obtain ⟨t, hdf⟩ := ensureLoaded_ok_df he
    rw [search_shape_ok he hdf]

theorem searchMany_snd (identifiers : List Ident) (s : Store) :
    (searchMany identifiers s).2 = (ensureLoaded s).2 := by
  rcases he : ensureLoaded s with ⟨r, s₁⟩
  cases r with
  | error e =>
    rw [searchMany, he]
  | ok u =>
    cases u
    obtain ⟨t, hdf⟩ := ensureLoaded_ok_df he
    rw [searchMany_shape_ok he hdf]

theorem search_by_axis_snd (axis sigma : ℚ) (s : Store) :
    (search_by_axis axis sigma s).2 = s ∨
    (search_by_axis axis sigma s).2 = (ensureLoaded s).2 := by
  by_cases hax : axis ≤ 0
  · left; rw [search_by_axis, if_pos hax]
  by_cases hsig : sigma ≤ 0
  · left; rw [search_by_axis, if_neg hax, if_pos hsig]
  right
  rcases he : ensureLoaded s with ⟨r, s₁⟩
  cases r with
  | error e => rw [search_by_axis_shape_err hax hsig he]
  | ok u =>
    cases u
    obtain ⟨t, hdf⟩ := ensureLoaded_ok_df he
    rw [search_by_axis_shape_ok hax hsig he hdf]

theorem get_catalog_snd (s : Store) :
    (get_catalog s).2 = (ensureLoaded s).2 := by
  rcases he : ensureLoaded s with ⟨r, s₁⟩
  cases r with
  | error e => rw [get_catalog_shape_err he]
  | ok u =>
    cases u
    rw [get_catalog_shape_ok he]

/-- C10: `search` (single and batch), `search_by_axis` and `get_catalog`
leave the current-type selector unchanged and the loaded tables of every
other catalog type unchanged. -/
theorem query_frame (identifier : Ident) (identifiers : List Ident) (axis sigma : ℚ)
    (s : Store) :
    framePreserved s (search identifier s).2 ∧
    framePreserved s (searchMany identifiers s).2 ∧
    framePreserved s (search_by_axis axis sigma s).2 ∧
    framePreserved s (get_catalog s).2 := by
  have hens : framePreserved s (ensureLoaded s).2 :=
    ⟨(ensureLoaded_frame s).1, (ensureLoaded_frame s).2.2⟩
  refine ⟨?_, ?_, ?_, ?_⟩
  · rw [framePreserved, search_snd]
    exact hens
  · rw [framePreserved, searchMany_snd]
    exact hens
  · rcases search_by_axis_snd axis sigma s with h | h
    · rw [framePreserved, h]
      exact ⟨rfl, fun k hk => rfl⟩
    · rw [framePreserved, h]
      exact hens
  · rw [framePreserved, get_catalog_snd]
    exact hens

theorem query_frame_witness :
    (search (Ident.int 1) sampleStore).2.catalog_type = sampleStore.catalog_type ∧
    lookupA "synthetic" (search (Ident.int 1) sampleStore).2.catalogs =
      lookupA "synthetic" sampleStore.catalogs :=
  ⟨(query_frame (Ident.int 1) [] 1 1 sampleStore).1.1,
   (query_frame (Ident.int 1) [] 1 1 sampleStore).1.2 "synthetic" (by decide)⟩

/-- C9: when several rows share the searched identifier, single-identifier
`search` returns the fields of the first such row in table order. -/
theorem search_duplicate_returns_first (identifier : Ident) (s : Store) (t : Table)
    (r₁ r₂ : Row) (rest : List Row) (ht : s.catalogDf = some t)
    (hdup : t.filter (nameMatches identifier.toStr) = r₁ :: r₂ :: rest) :
    search identifier s = (.ok (some r₁), s) := by
  rw [search_shape_ok (ensureLoaded_some ht) ht, hdup]
  rfl

theorem search_duplicate_returns_first_witness :
    search (Ident.int 7) dupStore =
      (.ok (some [("name", TCell.str "7"), ("a", TCell.num 1)]), dupStore) :=
  search_duplicate_returns_first (Ident.int 7) dupStore dupTable
    [("name", TCell.str "7"), ("a", TCell.num 1)]
    [("name", TCell.str "7"), ("a", TCell.num 2)] [] (by decide) (by decide)

/-- C3: `search_by_axis` fails with the validation error exactly when
`axis ≤ 0` or `sigma ≤ 0`; on a loaded table whose `a` column is a float
column it returns exactly the rows whose `a` lies in the closed interval
`[axis - sigma, axis + sigma]`, and an empty table (not an error) when
no row matches. -/
theorem search_by_axis_spec (axis sigma : ℚ) (s : Store) :
    ((search_by_axis axis sigma s).1 = .error .validation ↔ axis ≤ 0 ∨ sigma ≤ 0) ∧
    (∀ t, s.catalogDf = some t →
      (∀ row ∈ t, (lookupA "a" row).all numericCell = true) →
      ¬ axis ≤ 0 → ¬ sigma ≤ 0 →
      search_by_axis axis sigma s =
        (.ok (t.filter (axisMatches (axis - sigma) (axis + sigma))), s) ∧
      (∀ row, row ∈ t.filter (axisMatches (axis - sigma) (axis + sigma)) ↔
        row ∈ t ∧ ∃ q, lookupA "a" row = some (TCell.num q) ∧
          axis - sigma ≤ q ∧ q ≤ axis + sigma) ∧
      ((∀ row ∈ t, axisMatches (axis - sigma) (axis + sigma) row = false) →
        search_by_axis axis sigma s = (.ok [], s))) := by
  constructor
  · constructor
    · intro h
      by_cases hax : axis ≤ 0
      · exact Or.inl hax
      by_cases hsig : sigma ≤ 0
      · exact Or.inr hsig
      exfalso
      rcases he : ensureLoaded s with ⟨r, s₁⟩
      cases r with
      | error e =>
        rw [search_by_axis_shape_err hax hsig he] at h
        have h' : (Except.error e : Except Err Table) = .error .validation := h
        injection h' with h'
        exact ensureLoaded_error_not_validation he h'
      | ok u =>
        cases u
        obtain ⟨t, hdf⟩ := ensureLoaded_ok_df he
        rw [search_by_axis_shape_ok hax hsig he hdf] at h
        exact absurd h (by simp)
    · intro h
      rcases h with hax | hsig
      · rw [search_by_axis, if_pos hax]
      · by_cases hax : axis ≤ 0
        · rw [search_by_axis, if_pos hax]
        · rw [search_by_axis, if_neg hax, if_pos hsig]
  · intro t ht hnum hax hsig
    have hmain : search_by_axis axis sigma s =
        (.ok (t.filter (axisMatches (axis - sigma) (axis + sigma))), s) :=
      search_by_axis_shape_ok hax hsig (ensureLoaded_some ht) ht
    refine ⟨hmain, fun row => ?_, fun hempty => ?_⟩
    · rw [List.mem_filter]
      constructor
      · rintro ⟨hmem, hmatch⟩
        refine ⟨hmem, ?_⟩
        rw [axisMatches] at hmatch
        cases ha : lookupA "a" row with
        | none => rw [ha] at hmatch; exact absurd hmatch (by simp)
        | some v =>
          rw [ha] at hmatch
          cases v with
          | na => exact absurd hmatch (by simp)
          | str v => exact absurd hmatch (by simp)
          | rad q => exact absurd hmatch (by simp)
          | num q =>
            simp only [Bool.and_eq_true, decide_eq_true_eq] at hmatch
            exact ⟨q, rfl, hmatch.1, hmatch.2⟩
      · rintro ⟨hmem, q, ha, h1, h2⟩
        refine ⟨hmem, ?_⟩
        rw [axisMatches, ha]
        simp only [Bool.and_eq_true, decide_eq_true_eq]
        exact ⟨h1, h2⟩
    · rw [hmain]
      rw [List.filter_eq_nil_iff.mpr (fun row hmem => by
        rw [hempty row hmem]
        exact Bool.false_ne_true)]

theorem search_by_axis_spec_witness :
    ((search_by_axis (-1) 1 sampleStore).1 = .error .validation) ∧
    ((search_by_axis 1 0 sampleStore).1 = .error .validation) ∧
    search_by_axis 3 1 sampleStore =
      (.ok (sampleTable.filter (axisMatches (3 - 1) (3 + 1))), sampleStore) ∧
    sampleTable.filter (axisMatches (3 - 1) (3 + 1)) =
      [[("name", TCell.str "1"), ("a", TCell.num 2)]] ∧
    search_by_axis 10 1 sampleStore = (.ok [], sampleStore) := by
  refine ⟨?_, ?_, ?_, ?_, ?_⟩
  · exact (search_by_axis_spec (-1) 1 sampleStore).1.mpr (Or.inl (by norm_num))
  · exact (search_by_axis_spec 1 0 sampleStore).1.mpr (Or.inr (by norm_num))
  · exact (((search_by_axis_spec 3 1 sampleStore).2 sampleTable (by decide) (by decide)
      (by norm_num) (by norm_num))).1
  · have h2 : (3 : ℚ) - 1 = 2 := by norm_num
    have h4 : (3 : ℚ) + 1 = 4 := by norm_num
    rw [h2, h4]
    decide
  · refine (((search_by_axis_spec 10 1 sampleStore).2 sampleTable (by decide) (by decide)
      (by norm_num) (by norm_num))).2.2 ?_
    intro row hmem
    have h9 : (10 : ℚ) - 1 = 9 := by norm_num
    have h11 : (10 : ℚ) + 1 = 11 := by norm_num
    rw [h9, h11]
    revert row
    decide

theorem searchMany_fold_keys (rows : List Row) (init : List (String × Row)) (nm : String) :
    (∃ r, lookupA nm (rows.foldl (fun acc r =>
        match lookupA "name" r with
        | some (TCell.str n) => setA acc n r
        | _ => acc) init) = some r) ↔
      ((∃ r, lookupA nm init = some r) ∨
        ∃ row ∈ rows, lookupA "name" row = some (TCell.str nm)) := by
  induction rows generalizing init with
  | nil => simp [List.foldl]
  | cons r rest ih =>
    rw [List.foldl_cons, ih]
    have hstep : (∃ v, lookupA nm
        (match lookupA "name" r with
         | some (TCell.str n) => setA init n r
         | _ => init) = some v) ↔
        ((∃ v, lookupA nm init = some v) ∨ lookupA "name" r = some (TCell.str nm)) := by
      cases hn : lookupA "name" r with
      | none => simp
      | some c =>
        cases c with
        | na => simp
        | num q => simp
        | rad q => simp
        | str n =>
          by_cases hnm : nm = n
          · subst hnm
            simp [lookupA_setA_self]
          · simp only [lookupA_setA_ne init n nm r hnm]
            constructor
            · exact Or.inl
            · rintro (h | h)
              · exact h
              · injection h with h
                injection h with h
                exact absurd h.symm hnm
    constructor
    · rintro (h | ⟨row, hrow, hname⟩)
      · rcases hstep.mp h with h' | h'
        · exact Or.inl h'
        · exact Or.inr ⟨r, List.mem_cons_self _ _, h'⟩
      · exact Or.inr ⟨row, List.mem_cons_of_mem _ hrow, hname⟩
    · rintro (h | ⟨row, hrow, hname⟩)
      · exact Or.inl (hstep.mpr (Or.inl h))
      · rcases List.mem_cons.mp hrow with hr | hr
        · exact Or.inl (hstep.mpr (Or.inr (hr ▸ hname)))
        · exact Or.inr ⟨row, hr, hname⟩

/-- C4: `search` coerces its argument to its string form and matches by
exact string equality on the identifier column; a single identifier with
no match yields `None` (not an error); a list of identifiers yields a
mapping whose keys are exactly the coerced identifiers that were found,
missing ones silently omitted. -/
theorem search_exact_string_match (identifier : Ident) (identifiers : List Ident)
    (s : Store) (t : Table) (ht : s.catalogDf = some t) :
    search identifier s =
      (.ok ((t.filter (fun r =>
        lookupA "name" r = some (TCell.str identifier.toStr))).head?), s) ∧
    (∀ n : Int, search (Ident.int n) s = search (Ident.str (toString n)) s) ∧
    (t.filter (nameMatches identifier.toStr) = [] → search identifier s = (.ok none, s)) ∧
    ∀ res, searchMany identifiers s = (.ok res, s) →
      ∀ nm, (∃ r, lookupA nm res = some r) ↔
        (nm ∈ identifiers.map Ident.toStr ∧
          ∃ row ∈ t, lookupA "name" row = some (TCell.str nm)) := by
  have hshape : ∀ idf : Ident, search idf s =
      (.ok ((t.filter (nameMatches idf.toStr)).head?), s) :=
    fun idf => search_shape_ok (ensureLoaded_some ht) ht
  refine ⟨?_, ?_, ?_, ?_⟩
  · rw [hshape identifier]
    rfl
  · intro n
    rw [hshape (Ident.int n), hshape (Ident.str (toString n))]
    rfl
  · intro hempty
    rw [hshape identifier, hempty]
    rfl
  · intro res hres nm
    rw [searchMany_shape_ok (ensureLoaded_some ht) ht] at hres
    injection hres with h1 _
    injection h1 with h1
    rw [← h1, searchMany_fold_keys]
    constructor
    · rintro (h | ⟨row, hrow, hname⟩)
      · exact absurd h (by simp [lookupA])
      · rw [List.mem_filter] at hrow
        obtain ⟨hmem, hpred⟩ := hrow
        rw [hname] at hpred
        refine ⟨?_, row, hmem, hname⟩
        have := List.elem_iff.mp hpred
        exact this
    · rintro ⟨hnm, row, hmem, hname⟩
      refine Or.inr ⟨row, ?_, hname⟩
      rw [List.mem_filter]
      refine ⟨hmem, ?_⟩
      rw [hname]
      exact List.elem_iff.mpr hnm

theorem search_exact_string_match_witness :
    search (Ident.int 1) sampleStore =
      (.ok ((sampleTable.filter (fun r =>
        lookupA "name" r = some (TCell.str (Ident.int 1).toStr))).head?), sampleStore) ∧
    (sampleTable.filter (fun r =>
        lookupA "name" r = some (TCell.str (Ident.int 1).toStr))).head? =
      some [("name", TCell.str "1"), ("a", TCell.num 2)] ∧
    search (Ident.int 5) sampleStore = (.ok none, sampleStore) ∧
    ∀ nm, (∃ r, lookupA nm
        (match searchMany [Ident.int 1, Ident.int 99] sampleStore with
         | (.ok res, _) => res
         | _ => []) = some r) ↔
      (nm ∈ ([Ident.int 1, Ident.int 99].map Ident.toStr) ∧
        ∃ row ∈ sampleTable, lookupA "name" row = some (TCell.str nm)) := by
  refine ⟨?_, by decide, ?_, ?_⟩
  · exact (search_exact_string_match (Ident.int 1) [] sampleStore sampleTable (by decide)).1
  · exact (search_exact_string_match (Ident.int 5) [] sampleStore sampleTable
      (by decide)).2.2.1 (by decide)
  · intro nm
    have h := (search_exact_string_match (Ident.int 1) [Ident.int 1, Ident.int 99]
      sampleStore sampleTable (by decide)).2.2.2
    have hres : searchMany [Ident.int 1, Ident.int 99] sampleStore =
        (.ok [("1", [("name", TCell.str "1"), ("a", TCell.num 2)])], sampleStore) := by decide
    have h2 := h [("1", [("name", TCell.str "1"), ("a", TCell.num 2)])] hres nm
    rw [hres]
    exact h2

/-- C2 counterexample: a data row with 8 fields against the osculating
descriptor's 11 columns does not make the transform fail — the missing
trailing fields are read as NaN and the transform succeeds. -/
theorem transform_short_row_succeeds :
    (dataRows OSCULATING_CATALOG.skip_rows shortRowRaw).head? =
      some ["'1'", "57600", "2.5", "0.1", "10", "80", "73", "95"] ∧
    OSCULATING_CATALOG.columns.length = 11 ∧
    transform_astdys_catalog OSCULATING_CATALOG shortRowRaw = .ok wellFormedTable := by
  decide

/-- C2 (amended): the transform fails with the tokenizer (column-count)
error exactly when some data row has more fields than `column_names`; a
row with fewer fields is padded with missing values instead, and a
successful transform keeps one output row per data row. -/
theorem transform_field_count (cfg : Catalog) (lines : List String) :
    (transform_astdys_catalog cfg lines = .error .tokenizing ↔
      ∃ r ∈ dataRows cfg.skip_rows lines, cfg.columns.length < r.length) ∧
    (∀ t, transform_astdys_catalog cfg lines = .ok t →
      t.length = (dataRows cfg.skip_rows lines).length) := by
  constructor
  · constructor
    · intro h
      rw [transform_astdys_catalog] at h
      cases hp : exMapM (padRow cfg.columns) (dataRows cfg.skip_rows lines) with
      | error e =>
        rw [hp] at h
        obtain ⟨x, hx, hfx⟩ := exMapM_error_mem hp
        exact ⟨x, hx, (padRow_error hfx).2⟩
      | ok parsed =>
        rw [hp] at h
        by_cases hall : cfg.degree_columns.all (fun c => (keptColumns cfg).contains c) = true
        · have h' : (if cfg.degree_columns.all (fun c => (keptColumns cfg).contains c) then
              match exMapM (convertRow cfg.degree_columns)
                  ((parsed.map stripRowQuotes).map dropDelCols) with
              | .error e => (.error e : Except Err Table)
              | .ok converted => .ok (converted.map moveEpochRow)
            else .error .keyError) = .error .tokenizing := h
          rw [if_pos hall] at h'
          cases hcv : exMapM (convertRow cfg.degree_columns)
              ((parsed.map stripRowQuotes).map dropDelCols) with
          | error e =>
            rw [hcv] at h'
            injection h' with h'
            rw [convertRow_error (exMapM_error_mem hcv).choose_spec.2] at h'
            exact absurd h' (by decide)
          | ok converted =>
            rw [hcv] at h'
            exact absurd h' (by simp)
        · have h' : (if cfg.degree_columns.all (fun c => (keptColumns cfg).contains c) then
              match exMapM (convertRow cfg.degree_columns)
                  ((parsed.map stripRowQuotes).map dropDelCols) with
              | .error e => (.error e : Except Err Table)
              | .ok converted => .ok (converted.map moveEpochRow)
            else .error .keyError) = .error .tokenizing := h
          rw [if_neg hall] at h'
          injection h' with h'
          exact absurd h' (by decide)
    · rintro ⟨r, hr, hlen⟩
      have hpad : padRow cfg.columns r = .error .tokenizing := by
        rw [padRow, if_pos hlen]
      obtain ⟨e', he'⟩ := exMapM_error_of_mem hr hpad
      obtain ⟨x, hx, hfx⟩ := exMapM_error_mem he'
      have het : e' = .tokenizing := (padRow_error hfx).1
      rw [transform_astdys_catalog, he', het]
  · intro t h
    obtain ⟨parsed, converted, hp, hall, hcv, hteq⟩ := transform_ok_elim h
    rw [hteq, List.length_map, exMapM_ok_length hcv, List.length_map, List.length_map]
    exact exMapM_ok_length hp

theorem transform_field_count_witness :
    transform_astdys_catalog OSCULATING_CATALOG longRowRaw = .error .tokenizing ∧
    wellFormedTable.length = (dataRows OSCULATING_CATALOG.skip_rows shortRowRaw).length :=
  ⟨(transform_field_count OSCULATING_CATALOG longRowRaw).1.mpr
    ⟨["'1'", "57600", "2.5", "0.1", "10", "80", "73", "95", "3.3", "0.1", "-2", "extra"],
      by decide, by decide⟩,
   (transform_field_count OSCULATING_CATALOG shortRowRaw).2 wellFormedTable (by decide)⟩

theorem padRow_ok_elim {cols fields : List String} {padded : Row}
    (h : padRow cols fields = .ok padded) :
    fields.length ≤ cols.length ∧
    padded = cols.zip (fields.map TCell.str ++
      List.replicate (cols.length - fields.length) TCell.na) := by
  by_cases hlt : cols.length < fields.length
  · rw [padRow, if_pos hlt] at h
    exact absurd h (by simp)
  · rw [padRow, if_neg hlt] at h
    injection h with h
    exact ⟨Nat.le_of_not_lt hlt, h.symm⟩

theorem degree_col_kept {cfg : Catalog} {c : String}
    (hall : cfg.degree_columns.all (fun c' => (keptColumns cfg).contains c') = true)
    (hc : c ∈ cfg.degree_columns) : startsWithDel c = false := by
  have hkept : (keptColumns cfg).contains c = true := List.all_eq_true.mp hall c hc
  have hmem : c ∈ keptColumns cfg := List.elem_iff.mp hkept
  have h2 := (List.mem_filter.mp hmem).2
  simpa using h2

theorem transform_row_cell {cfg : Catalog} {fields : List String} {padded : Row}
    {j : Nat} {c s : String}
    (hnd : cfg.columns.Nodup)
    (hpadrow : padRow cfg.columns fields = .ok padded)
    (hj : cfg.columns[j]? = some c)
    (hs : fields[j]? = some s)
    (hdel : startsWithDel c = false) :
    lookupA c (dropDelCols (stripRowQuotes padded)) = some (TCell.str (stripQuotes s)) := by
  obtain ⟨hle, hpeq⟩ := padRow_ok_elim hpadrow
  have hjlt : j < fields.length := by
    by_contra hcon
    rw [List.getElem?_eq_none (Nat.le_of_not_lt hcon)] at hs
    exact absurd hs (by simp)
  have hclen : (fields.map TCell.str ++
      List.replicate (cfg.columns.length - fields.length) TCell.na).length =
      cfg.columns.length := by
    rw [List.length_append, List.length_map, List.length_replicate, Nat.add_sub_cancel' hle]
  have hcells : (fields.map TCell.str ++
      List.replicate (cfg.columns.length - fields.length) TCell.na)[j]? =
      some (TCell.str s) := by
    rw [List.getElem?_append_left (by rw [List.length_map]; exact hjlt), List.getElem?_map, hs]
    rfl
  have hlook : lookupA c padded = some (TCell.str s) := by
    rw [hpeq, lookupA_zip hnd hclen hj, hcells]
  have hstrip : lookupA c (stripRowQuotes padded) = some (TCell.str (stripQuotes s)) := by
    rw [stripRowQuotes, lookupA_map_val stripCell padded c, hlook]
    rfl
  rw [dropDelCols, lookupA_filter_key (fun k => !startsWithDel k) (stripRowQuotes padded) c
    (by simp [hdel])]
  exact hstrip

/-- C1: in a successful transform, every value of every listed degree
column is the radian conversion — the parsed quote-stripped token times
`π / 180` — of the corresponding raw field; and a present degree-column
value that is not numeric after quote-stripping makes the transform fail
with the conversion (FormatError) error. -/
theorem degree_columns_converted (cfg : Catalog) (lines : List String)
    (hnd : cfg.columns.Nodup) :
    (∀ t, transform_astdys_catalog cfg lines = .ok t →
      ∀ c ∈ cfg.degree_columns, ∀ (i : Nat) (fields : List String) (row : Row)
        (j : Nat) (s : String),
        (dataRows cfg.skip_rows lines)[i]? = some fields →
        t[i]? = some row →
        cfg.columns[j]? = some c →
        fields[j]? = some s →
        ∃ q, parseFloat (stripQuotes s) = some q ∧
          lookupA c row = some (TCell.rad q) ∧
          TCell.realValue (TCell.rad q) = some ((q : ℝ) * Real.pi / 180)) ∧
    (∀ (i : Nat) (fields : List String) (j : Nat) (c s : String),
      (∀ r ∈ dataRows cfg.skip_rows lines, r.length ≤ cfg.columns.length) →
      cfg.degree_columns.all (fun c' => (keptColumns cfg).contains c') = true →
      (dataRows cfg.skip_rows lines)[i]? = some fields →
      cfg.columns[j]? = some c →
      c ∈ cfg.degree_columns →
      fields[j]? = some s →
      parseFloat (stripQuotes s) = none →
      transform_astdys_catalog cfg lines = .error .format) := by
  constructor
  · intro t htr c hc i fields row j s hfields hrowi hj hs
    obtain ⟨parsed, converted, hp, hall, hcv, hteq⟩ := transform_ok_elim htr
    obtain ⟨padded, hpadrow, hparsedi⟩ := exMapM_ok_get hp i fields hfields
    have hdel : startsWithDel c = false := degree_col_kept hall hc
    have hlookdrop := transform_row_cell hnd hpadrow hj hs hdel
    have hcleani : ((parsed.map stripRowQuotes).map dropDelCols)[i]? =
        some (dropDelCols (stripRowQuotes padded)) := by
      rw [List.getElem?_map, List.getElem?_map, hparsedi]
      rfl
    obtain ⟨crow, hcrow, hconvi⟩ := exMapM_ok_get hcv i _ hcleani
    rw [hteq, List.getElem?_map, hconvi] at hrowi
    injection hrowi with hroweq
    have hcontains : cfg.degree_columns.contains c = true := List.elem_iff.mpr hc
    obtain ⟨w, hw, hlookc⟩ := convertRow_ok_lookup hcrow hcontains _ hlookdrop
    simp only [convertCell] at hw
    cases hqp : parseFloat (stripQuotes s) with
    | none =>
      rw [hqp] at hw
      exact absurd hw (by simp)
    | some q =>
      rw [hqp] at hw
      injection hw with hwq
      refine ⟨q, rfl, ?_, rfl⟩
      rw [← hroweq, lookupA_moveEpoch, hlookc, ← hwq]
  · intro i fields j c s hfit hall hfields hj hc hs hqnone
    obtain ⟨parsed, hp⟩ := exMapM_ok_of_forall
      (f := padRow cfg.columns) (l := dataRows cfg.skip_rows lines)
      (fun r hr => ⟨_, padRow_ok (Nat.not_lt.mpr (hfit r hr))⟩)
    obtain ⟨padded, hpadrow, hparsedi⟩ := exMapM_ok_get hp i fields hfields
    have hdel : startsWithDel c = false := degree_col_kept hall hc
    have hlookdrop := transform_row_cell hnd hpadrow hj hs hdel
    have hcontains : cfg.degree_columns.contains c = true := List.elem_iff.mpr hc
    have hfailcell : convertCell (TCell.str (stripQuotes s)) = .error .format := by
      simp only [convertCell]
      rw [hqnone]
    have hfailpair : convertPair cfg.degree_columns (c, TCell.str (stripQuotes s)) =
        .error .format := by
      rw [convertPair]
      rw [if_pos hcontains]
      rw [hfailcell]
    have hpmem : (c, TCell.str (stripQuotes s)) ∈ dropDelCols (stripRowQuotes padded) :=
      lookupA_mem hlookdrop
    obtain ⟨e₁, he₁⟩ := exMapM_error_of_mem hpmem hfailpair
    have he₁' : convertRow cfg.degree_columns (dropDelCols (stripRowQuotes padded)) =
        .error e₁ := he₁
    have het₁ : e₁ = .format := convertRow_error he₁'
    have hcleani : ((parsed.map stripRowQuotes).map dropDelCols)[i]? =
        some (dropDelCols (stripRowQuotes padded)) := by
      rw [List.getElem?_map, List.getElem?_map, hparsedi]
      rfl
    have hcmem : dropDelCols (stripRowQuotes padded) ∈
        (parsed.map stripRowQuotes).map dropDelCols := List.getElem?_mem hcleani
    obtain ⟨e₂, he₂⟩ := exMapM_error_of_mem hcmem he₁'
    have het₂ : e₂ = .format := by
      obtain ⟨x, _, hx⟩ := exMapM_error_mem he₂
      exact convertRow_error hx
    rw [transform_astdys_catalog, hp]
    show (if cfg.degree_columns.all (fun c' => (keptColumns cfg).contains c') then
        match exMapM (convertRow cfg.degree_columns)
            ((parsed.map stripRowQuotes).map dropDelCols) with
        | .error e => (.error e : Except Err Table)
        | .ok converted => .ok (converted.map moveEpochRow)
      else .error .keyError) = .error .format
    rw [if_pos hall, he₂, het₂]

theorem degree_columns_converted_witness :
    ∃ q, parseFloat (stripQuotes "10") = some q ∧
      lookupA "inc" tinyRow = some (TCell.rad q) ∧
      TCell.realValue (TCell.rad q) = some ((q : ℝ) * Real.pi / 180) :=
  (degree_columns_converted tinyCfg tinyRaw (by decide)).1 [tinyRow] (by decide)
    "inc" (by decide) 0 ["'1'", "10", "x"] tinyRow 1 "10"
    (by decide) (by decide) (by decide) (by decide)

/-! ## Sanity checks on concrete values -/

theorem toordinal_base : toordinal 1 1 1 = 1 := by decide

theorem civil_roundtrip_epoch : civilOfOrdinal (toordinal 1858 11 17) = (1858, 11, 17) := by
  decide

theorem civil_roundtrip_mjd59215 :
    civilOfOrdinal (toordinal 1858 11 17 + 59215) = (2021, 1, 1) := by decide

theorem parseFloat_scientific : parseFloat "-12.5e-1" = some (mkRat (-5) 4) := by decide

theorem parseFloat_plain : parseFloat "14.73973" = some (mkRat 1473973 100000) := by decide

theorem parseFloat_malformed : parseFloat "2.5.1" = none ∧ parseFloat "" = none := by decide

theorem transform_wellFormed :
    transform_astdys_catalog OSCULATING_CATALOG wellFormedRaw = .ok wellFormedTable := by decide
